import Mathlib

/-!
# ViSTA Simulation Format Validator — a shallow embedding

This file embeds the core of the ViSTA Simulation Format Validator
(`processor.py`, `validator.py`, `config.py`) in Lean 4 and proves the
specification claims about it.

Modelling conventions:

* A pandas `DataFrame` is a `Table`: an ordered list of named columns.
* A cell is `Option ℚ`: `some q` is a finite numeric value, `none` is the
  missing marker (pandas `NaN` / empty cell).  String-valued cells do not
  occur in the inputs the claims are about, so cells are numeric-or-missing;
  validator branches reachable only for non-numeric cells (the
  `Actor_type contains non-numeric values` error raised from a
  `ValueError`/`TypeError`) are consequently unreachable in the model and
  noted in comments.
* Python exceptions (KeyError, IndexError, ValueError on `int(nan)`, a
  `ParseError` from the tabular loader) are modelled by `Option`: a function
  that can raise returns `none` exactly where the Python raises.
* Floats are modelled by exact rationals.  `np.sqrt` is modelled by
  `ratSqrt`, which agrees with the real square root on perfect-square
  rationals (the only points at which a claim evaluates it), and Python's
  `round(x, n)` by floor-based rounding (`round6`/`round4`); no claim
  depends on the tie-breaking rule of float rounding.
-/

namespace ViSTA

/-- A table cell: a numeric value (`some q`) or the missing marker `none`
(pandas `NaN` / empty cell). -/
abbrev Cell := Option ℚ

/-- `Series.dropna()`: the present numeric values of a column, in order. -/
def dropna (l : List Cell) : List ℚ := l.filterMap id

/-- pandas `==` comparison of cells: `NaN` compares unequal to everything,
including itself. -/
def cellEqCmp : Cell → Cell → Bool
  | some a, some b => decide (a = b)
  | _, _ => false

/-- Cell subtraction, `NaN`-propagating (pandas arithmetic). -/
def cellSub : Cell → Cell → Cell
  | some a, some b => some (a - b)
  | _, _ => none

/-- A named column of a data frame. -/
structure Column where
  name : String
  vals : List Cell
deriving DecidableEq, Repr

/-- A data frame: an ordered list of named columns. -/
structure Table where
  cols : List Column
deriving DecidableEq, Repr

/-- `df.columns`. -/
def Table.names (t : Table) : List String := t.cols.map Column.name

/-- `df[name]`: the column with the given name, when present (first match;
column names are unique after loading). -/
def Table.getCol? (t : Table) (n : String) : Option (List Cell) :=
  (t.cols.find? (fun c => c.name == n)).map Column.vals

/-- `len(df)`: pandas frames have uniform column lengths, so the row count is
read off the first column (0 for a column-less frame). -/
def Table.nRows (t : Table) : ℕ :=
  match t.cols with
  | [] => 0
  | c :: _ => c.vals.length

/-- Well-formedness of a materialised pandas frame: every column has the same
length. -/
def Table.Uniform (t : Table) : Prop :=
  ∀ c ∈ t.cols, c.vals.length = t.nRows

instance (t : Table) : Decidable t.Uniform :=
  inferInstanceAs (Decidable (∀ c ∈ t.cols, c.vals.length = t.nRows))

/-- `df[name] = vals`: replace the column in place, or append it at the end. -/
def Table.setCol (t : Table) (n : String) (vs : List Cell) : Table :=
  if t.names.contains n then
    ⟨t.cols.map (fun c => if c.name = n then ⟨n, vs⟩ else c)⟩
  else
    ⟨t.cols ++ [⟨n, vs⟩]⟩

/-- Leading-whitespace removal on a character list. -/
def trimCharsLeft : List Char → List Char
  | [] => []
  | c :: cs => if c.isWhitespace then trimCharsLeft cs else c :: cs

/-- Python `str.strip()`: surrounding whitespace removed (defined by
structural recursion over the character list). -/
def strTrim (s : String) : String :=
  ⟨trimCharsLeft ((trimCharsLeft s.data.reverse).reverse)⟩

/-- Python `str.startswith(pre)`. -/
def strStartsWith (s pre : String) : Bool := pre.data.isPrefixOf s.data

/-- Column-name normalisation shared by `load_vut` and `load_actors`:
`df.columns = [str(c).strip() for c in df.columns]` followed by
`df.loc[:, ~df.columns.str.startswith("Unnamed")]`. -/
def normalize (t : Table) : Table :=
  ⟨(t.cols.map (fun c => ⟨strTrim c.name, c.vals⟩)).filter
    (fun c => !(strStartsWith c.name "Unnamed"))⟩

/-- Integer square root by downward search (structural recursion): the
largest `k ≤ fuel` with `k * k ≤ n`. -/
def natSqrtAux : ℕ → ℕ → ℕ
  | 0, _ => 0
  | (k + 1), n => if (k + 1) * (k + 1) ≤ n then k + 1 else natSqrtAux k n

/-- Integer square root (exact on perfect squares). -/
def natSqrt (n : ℕ) : ℕ := natSqrtAux n n

/-- `np.sqrt`, modelled exactly on perfect-square rationals (the only points
at which a claim evaluates it); elsewhere Python would produce an inexact
float approximation and this model an integer-square-root approximation. -/
def ratSqrt (q : ℚ) : ℚ := (natSqrt q.num.toNat : ℚ) / (natSqrt q.den : ℚ)

/-- Python `round(x, 6)` on exact rationals (floor-based; the claims do not
depend on the tie-breaking rule of binary float rounding). -/
def round6 (q : ℚ) : ℚ := (⌊q * 1000000 + 1/2⌋ : ℚ) / 1000000

/-- Python `round(x, 4)` on exact rationals. -/
def round4 (q : ℚ) : ℚ := (⌊q * 10000 + 1/2⌋ : ℚ) / 10000

/-- Python `int()` on a float: truncation toward zero. -/
def pyInt (q : ℚ) : ℤ := if 0 ≤ q then ⌊q⌋ else -⌊-q⌋

/-- `processor.load_vut` after the byte-parsing stage (the argument is the
table `_read_tabular` produced).  `none` models an exception escaping the
Python function: `KeyError` when `Time` is absent, `IndexError` from
`df["Time"].iloc[0]` on a zero-row frame. -/
def load_vut (raw : Table) : Option Table :=
  let df := normalize raw
  match df.getCol? "Time" with
  | none => none
  | some timeVals =>
    match timeVals.head? with
    | none => none
    | some t0 =>
      let df1 := df.setCol "t" (timeVals.map (fun c => cellSub c t0))
      match df1.getCol? "VUT_vel_abs" with
      | some va =>
        let ms : List Cell := va.map (fun c => some (c.getD 0))
        let kmh : List Cell := ms.map (fun c => c.map (fun q => q * (36/10)))
        some ((df1.setCol "VUT_vel_ms" ms).setCol "VUT_vel_kmh" kmh)
      | none => some df1

/-- The row-wise `Actor_vel_abs` reconstruction of `load_actors`:
`zero_mask = df["Actor_vel_abs"].fillna(0) == 0`, and on masked rows
`sqrt(lat.fillna(0)**2 + lng.fillna(0)**2)`. -/
def reconVelAbs (absv latv lngv : List Cell) : List Cell :=
  (List.range absv.length).map (fun i =>
    let a := absv.getD i none
    if a.getD 0 = 0 then
      some (ratSqrt (((latv.getD i none).getD 0) * ((latv.getD i none).getD 0)
        + ((lngv.getD i none).getD 0) * ((lngv.getD i none).getD 0)))
    else a)

/-- `processor.load_actors` after the byte-parsing stage.  When
`Actor_vel_abs` and `Actor_vel_lat` are both present,
`df.loc[zero_mask, "Actor_vel_lng"]` raises `KeyError` if the `Actor_vel_lng`
column is absent (modelled by `none`), irrespective of the mask. -/
def load_actors (raw : Table) : Option Table :=
  let df := normalize raw
  match df.getCol? "Actor_vel_abs", df.getCol? "Actor_vel_lat" with
  | some absv, some latv =>
    match df.getCol? "Actor_vel_lng" with
    | none => none
    | some lngv => some (df.setCol "Actor_vel_abs" (reconVelAbs absv latv lngv))
  | _, _ => some df

/-! ## validator.py -/

/-- `validator.VUT_REQUIRED_COLS`. -/
def VUT_REQUIRED_COLS : List String :=
  ["Time", "Step_number", "VUT_pos_lat", "VUT_pos_lng", "VUT_heading", "VUT_vel_abs"]

/-- `validator.ACTOR_REQUIRED_COLS`. -/
def ACTOR_REQUIRED_COLS : List String :=
  ["Time", "Step_number", "Actor_Id", "Actor_type", "Actor_pos_true_lat",
   "Actor_pos_true_lng", "Actor_heading_true"]

/-- The aggregated missing-required-columns message. -/
def missingMsg (missing : List String) : String :=
  "Missing required columns: " ++ String.intercalate ", " missing

def vutLatMsg : String := "VUT_pos_lat contains values outside the valid range (-90 to 90)"

def vutLngMsg : String := "VUT_pos_lng contains values outside the valid range (-180 to 360)"

def vutHeadingMsg : String := "VUT_heading contains values outside the valid range (0 to 360)"

def vutVelMsg : String := "VUT_vel_abs contains negative values"

def timeMonoMsg : String := "Time column is not monotonically non-decreasing"

def actorLatMsg : String := "Actor_pos_true_lat contains values outside the valid range (-90 to 90)"

def actorLngMsg : String := "Actor_pos_true_lng contains values outside the valid range (-180 to 360)"

def actorHeadingMsg : String := "Actor_heading_true contains values outside the valid range (0 to 360)"

def actorTypeMsg : String := "Actor_type contains non-integer values"

/-- `f"{col} has {n} NaN value(s)"`. -/
def nanWarnMsg (col : String) (n : ℕ) : String :=
  col ++ " has " ++ toString n ++ " NaN value(s)"

/-- `errors.append(m)` guarded by a condition: the one-element or empty list
the guarded append contributes to the error list. -/
def errIf (b : Bool) (m : String) : List String := if b then [m] else []

/-- `len(l) > 0 and ((l < lo) | (l > hi)).any()` on a dropna'd column. -/
def outOfRange (lo hi : ℚ) (l : List ℚ) : Bool :=
  decide (0 < l.length) && l.any (fun q => decide (q < lo) || decide (hi < q))

/-- `len(l) > 1 and (l.diff().dropna() < 0).any()` on the dropna'd `Time`
column: some consecutive pair decreases. -/
def hasDecrease (l : List ℚ) : Bool :=
  decide (1 < l.length) && (l.zip l.tail).any (fun p => decide (p.2 < p.1))

/-- `series.isna().sum()`: the number of missing cells of a column. -/
def nanCount (vs : List Cell) : ℕ := vs.countP (fun c => c.isNone)

/-- `validator.validate_vut`. -/
def validate_vut (df : Table) : List String × List String :=
  let missing := VUT_REQUIRED_COLS.filter (fun c => !(df.names.contains c))
  if missing.isEmpty then
    let lat := dropna ((df.getCol? "VUT_pos_lat").getD [])
    let lng := dropna ((df.getCol? "VUT_pos_lng").getD [])
    let heading := dropna ((df.getCol? "VUT_heading").getD [])
    let vel := dropna ((df.getCol? "VUT_vel_abs").getD [])
    let timeVals := dropna ((df.getCol? "Time").getD [])
    let errors :=
      errIf (outOfRange (-90) 90 lat) vutLatMsg
      ++ errIf (outOfRange (-180) 360 lng) vutLngMsg
      ++ errIf (outOfRange 0 360 heading) vutHeadingMsg
      ++ errIf (decide (0 < vel.length) && vel.any (fun q => decide (q < 0))) vutVelMsg
      ++ errIf (hasDecrease timeVals) timeMonoMsg
    let warnings := ["VUT_pos_lat", "VUT_pos_lng", "VUT_heading"].filterMap (fun c =>
      match df.getCol? c with
      | some vs =>
        if 0 < nanCount vs then some (nanWarnMsg c (nanCount vs)) else none
      | none => none)
    (errors, warnings)
  else
    ([missingMsg missing], [])

/-- `validator.validate_actors`.  Cells are numeric-or-missing, so the
`except (ValueError, TypeError)` branch (`Actor_type contains non-numeric
values`) is unreachable and the `try` body alone is modelled;
`float(x).is_integer()` is `q.den = 1` on exact rationals. -/
def validate_actors (df : Table) : List String × List String :=
  let missing := ACTOR_REQUIRED_COLS.filter (fun c => !(df.names.contains c))
  if missing.isEmpty then
    let lat := dropna ((df.getCol? "Actor_pos_true_lat").getD [])
    let lng := dropna ((df.getCol? "Actor_pos_true_lng").getD [])
    let heading := dropna ((df.getCol? "Actor_heading_true").getD [])
    let tys := dropna ((df.getCol? "Actor_type").getD [])
    let errors :=
      errIf (outOfRange (-90) 90 lat) actorLatMsg
      ++ errIf (outOfRange (-180) 360 lng) actorLngMsg
      ++ errIf (outOfRange 0 360 heading) actorHeadingMsg
      ++ errIf (decide (0 < (tys.filter (fun q => decide (q.den ≠ 1))).length)) actorTypeMsg
    (errors, [])
  else
    ([missingMsg missing], [])

/-! ## processor.py — actor enumeration and the evaluation pipeline -/

def dedupFirstAux (seen : List Cell) : List Cell → List Cell
  | [] => []
  | a :: rest =>
    if a ∈ seen then dedupFirstAux seen rest else a :: dedupFirstAux (a :: seen) rest

/-- `pd.unique` / `Series.unique()`: distinct values in first-appearance
order (`NaN`, unlike under `==`, deduplicates to a single value). -/
def dedupFirst (l : List Cell) : List Cell := dedupFirstAux [] l

/-- The row indices of `df[df["Actor_Id"] == aid]`, given the id column
values (`NaN` ids match nothing, mirroring pandas `==`). -/
def maskIdx (ids : List Cell) (aid : Cell) : List ℕ :=
  (List.range ids.length).filter (fun i => cellEqCmp (ids.getD i none) aid)

/-- The entries of a column at the given row indices. -/
def selIdx (vals : List Cell) (idxs : List ℕ) : List Cell :=
  idxs.map (fun i => vals.getD i none)

/-- `config.ACTOR_TYPE_NAMES`. -/
def ACTOR_TYPE_NAMES : List (ℤ × String) :=
  [(0, "pedestrian"), (1, "PMD"), (2, "cyclist"), (3, "animal"),
   (4, "passenger_vehicle"), (5, "motorcycle"), (6, "fire_truck"),
   (7, "ambulance"), (8, "van"), (9, "trailer"), (10, "truck"),
   (11, "bus"), (20, "construction_cone"), (99, "others")]

/-- `config.ACTOR_TYPE_NAMES.get(atype, f"type_{atype}")`. -/
def actorTypeName (z : ℤ) : String :=
  (ACTOR_TYPE_NAMES.lookup z).getD ("type_" ++ toString z)

/-- `int(a_rows["Actor_type"].iloc[0]) if "Actor_type" in a_rows.columns
else 0`.  `none` models a raise: `IndexError` from `iloc[0]` on an empty row
subset, or `ValueError` from `int(nan)` when the subset's first type value is
missing. -/
def actorTypeOf (df : Table) (ids : List Cell) (aid : Cell) : Option ℤ :=
  match df.getCol? "Actor_type" with
  | none => some 0
  | some tys =>
    match (selIdx tys (maskIdx ids aid)).head? with
    | none => none
    | some none => none
    | some (some q) => some (pyInt q)

/-- A Python loop that can raise: `none` as soon as one element fails. -/
def mapOpt (f : α → Option β) : List α → Option (List β)
  | [] => some []
  | a :: l =>
    match f a, mapOpt f l with
    | some b, some bs => some (b :: bs)
    | _, _ => none

/-- One element of the `processor.extract_actors` result.  The Python stores
`str(aid)`; the raw id value is kept here, the string conversion being pure
display formatting. -/
structure ActorInfo where
  actor_id : Cell
  actor_type : ℤ
  actor_type_name : String
deriving DecidableEq, Repr

/-- `processor.extract_actors` after the byte-parsing stage. -/
def extract_actors (raw : Table) : Option (List ActorInfo) :=
  match load_actors raw with
  | none => none
  | some df =>
    match df.getCol? "Actor_Id" with
    | none => some []
    | some ids =>
      mapOpt (fun aid =>
        (actorTypeOf df ids aid).map (fun z =>
          { actor_id := aid, actor_type := z, actor_type_name := actorTypeName z }))
        (dedupFirst ids)

/-- An output array entry: `some q` is a finite float, `none` a `NaN` left in
the output (an index-aligned gap). -/
abbrev OutVal := Option ℚ

/-- One entry of `safe_col`: `round(float(v), 6)` with `None`/`NaN` replaced
by the default. -/
def safeVal (dflt : ℚ) (c : Cell) : OutVal :=
  match c with
  | some q => some (round6 q)
  | none => some dflt

/-- `evaluate.safe_col`: a column as rounded floats with missing values
defaulted, or an all-default array of the frame's length when the column is
absent. -/
def safe_col (df : Table) (n : String) (dflt : ℚ) : List OutVal :=
  match df.getCol? n with
  | some vs => vs.map (safeVal dflt)
  | none => List.replicate df.nRows (some dflt)

/-- `round(float(v), 6)` with no missing-value guard (the actor `lat`/`lng`
arrays): a missing cell flows through as `NaN`. -/
def rawRound6 (c : Cell) : OutVal := c.map round6

/-- `round(float(v), 4)` with no missing-value guard. -/
def rawRound4 (c : Cell) : OutVal := c.map round4

/-- One actor heading entry: `round(float(v), 4)` with `NaN` replaced by
`0.0`. -/
def headingVal (c : Cell) : OutVal :=
  match c with
  | some q => some (round4 q)
  | none => some 0

/-- One actor `t` entry: look the actor row's step number up in the VUT
step-number column and take the first matching row's relative time, else
`0.0`.  A found-but-missing relative time flows through `round` as `NaN`. -/
def trajTimeVal (vutStep tcol : List Cell) (s : Cell) : OutVal :=
  match vutStep.findIdx? (fun c => cellEqCmp c s) with
  | some i => rawRound4 (tcol.getD i none)
  | none => some 0

/-- One element of the `actors` output of `evaluate`, with its trajectory
arrays. -/
structure ActorOut where
  actor_id : Cell
  actor_type : ℤ
  actor_type_name : String
  traj_lat : List OutVal
  traj_lng : List OutVal
  traj_heading : List OutVal
  traj_t : List OutVal
deriving DecidableEq, Repr

/-- The per-actor body of `evaluate`'s actor loop: the type lookup and the
trajectory dict.  `none` models a raise escaping the loop (`KeyError` on an
absent `Actor_pos_true_lat`/`Actor_pos_true_lng`/`Step_number` column of the
actor frame, a raising type lookup, or `KeyError` on the VUT frame's
`Step_number` when at least one actor row is iterated).  The `"t"` column is
always present on a frame produced by `load_vut`, so its lookup never
fails. -/
def buildActor (vdf adf : Table) (ids : List Cell) (aid : Cell) : Option ActorOut :=
  match actorTypeOf adf ids aid with
  | none => none
  | some z =>
    match adf.getCol? "Actor_pos_true_lat", adf.getCol? "Actor_pos_true_lng",
          adf.getCol? "Step_number" with
    | some latv, some lngv, some stepv =>
      let idxs := maskIdx ids aid
      let steps := selIdx stepv idxs
      let tvals : Option (List OutVal) :=
        match steps with
        | [] => some []
        | _ =>
          match vdf.getCol? "Step_number" with
          | none => none
          | some vsteps =>
            some (steps.map (trajTimeVal vsteps ((vdf.getCol? "t").getD [])))
      tvals.map (fun ts =>
        { actor_id := aid, actor_type := z, actor_type_name := actorTypeName z,
          traj_lat := (selIdx latv idxs).map rawRound6,
          traj_lng := (selIdx lngv idxs).map rawRound6,
          traj_heading :=
            match adf.getCol? "Actor_heading_true" with
            | some hv => (selIdx hv idxs).map headingVal
            | none => List.replicate idxs.length (some 0),
          traj_t := ts })
    | _, _, _ => none

/-- The result record of `evaluate`. -/
structure EvalResult where
  test_case_id : String
  run_id : String
  valid : Bool
  errors : List String
  warnings : List String
  vut : List (String × List OutVal)
  actors : List ActorOut
deriving DecidableEq, Repr

/-- The fixed channel list of `evaluate`'s `vut_data` dict: output key and
source column name. -/
def VUT_CHANNELS : List (String × String) :=
  [("t", "t"), ("lat", "VUT_pos_lat"), ("lng", "VUT_pos_lng"),
   ("heading", "VUT_heading"), ("vel_ms", "VUT_vel_ms"),
   ("vel_kmh", "VUT_vel_kmh"), ("accl_lat", "VUT_accl_lat"),
   ("accl_lng", "VUT_accl_lng"), ("braking_level", "VUT_braking_level"),
   ("throttle_level", "VUT_throttle_level"),
   ("steering_pct", "VUT_steering_angle_percentage"),
   ("ind_left", "VUT_ind_st_dir_left"), ("ind_right", "VUT_ind_st_dir_right"),
   ("ind_hazard", "VUT_ind_st_hazard"), ("ind_reverse", "VUT_ind_st_reverse"),
   ("ind_braking", "VUT_ind_st_braking")]

/-- `processor.evaluate` after the byte-parsing stage.  `actorArg = none`
models `actor_bytes is None`; `some none` models actor bytes on which
`_read_tabular` raises a `ParseError`; `some (some raw)` models actor bytes
parsing to `raw`.  An overall `none` models an uncaught exception escaping
`evaluate` — the function body has no `try`/`except`. -/
def evaluate (vutRaw : Table) (actorArg : Option (Option Table))
    (tc rid : String) : Option EvalResult :=
  match load_vut vutRaw with
  | none => none
  | some vdf =>
    let vutPair := validate_vut vdf
    let vutData := VUT_CHANNELS.map (fun p => (p.1, safe_col vdf p.2 0))
    match actorArg with
    | none =>
      some { test_case_id := tc, run_id := rid,
             valid := vutPair.1.isEmpty, errors := vutPair.1,
             warnings := vutPair.2, vut := vutData, actors := [] }
    | some none => none
    | some (some raw) =>
      match load_actors raw with
      | none => none
      | some adf =>
        let aPair := validate_actors adf
        let errors := vutPair.1 ++ aPair.1
        let warnings := vutPair.2 ++ aPair.2
        let actorsOpt : Option (List ActorOut) :=
          match adf.getCol? "Actor_Id" with
          | none => some []
          | some ids => mapOpt (buildActor vdf adf ids) (dedupFirst ids)
        actorsOpt.map (fun acts =>
          { test_case_id := tc, run_id := rid,
            valid := errors.isEmpty, errors := errors, warnings := warnings,
            vut := vutData, actors := acts })

/-! ## Auxiliary notions used by the claims -/

/-- A column list is non-decreasing: every consecutive pair is ordered. -/
def nonDecr (l : List ℚ) : Bool :=
  (l.zip l.tail).all (fun p => decide (p.1 ≤ p.2))

/-- Two columns are related by one row permutation: same name, permuted
values. -/
def ColPerm (c d : Column) : Prop := c.name = d.name ∧ c.vals.Perm d.vals

/-- Two tables are related by a row permutation: columns align by position
and each column's values are permuted.  (A genuine row shuffle permutes
every column with the same index permutation, which implies this.) -/
def TablePerm (s t : Table) : Prop := List.Forall₂ ColPerm s.cols t.cols

/-! ## Concrete tables used by scenario checks, counterexamples and
witnesses -/

/-- A well-formed two-row vehicle table with all required columns and benign
values. -/
def exVut : Table :=
  ⟨[⟨"Time", [some 0, some 1]⟩, ⟨"Step_number", [some 0, some 1]⟩,
    ⟨"VUT_pos_lat", [some 1, some 1]⟩, ⟨"VUT_pos_lng", [some 2, some 2]⟩,
    ⟨"VUT_heading", [some 3, some 3]⟩, ⟨"VUT_vel_abs", [some 4, some 4]⟩]⟩

/-- A vehicle table with only a `Time` column: all other required columns
missing. -/
def exVutMissing : Table := ⟨[⟨"Time", [some 0]⟩]⟩

/-- The spec scenario: a one-row vehicle table, all required columns present,
`VUT_pos_lat = 95`. -/
def exVutScen : Table :=
  ⟨[⟨"Time", [some 0]⟩, ⟨"Step_number", [some 0]⟩, ⟨"VUT_pos_lat", [some 95]⟩,
    ⟨"VUT_pos_lng", [some 0]⟩, ⟨"VUT_heading", [some 0]⟩,
    ⟨"VUT_vel_abs", [some 0]⟩]⟩

/-- A vehicle table whose single `Time` value is missing. -/
def exVutNaNTime : Table := ⟨[⟨"Time", [none]⟩]⟩

/-- A header-only vehicle table: a `Time` column and zero data rows. -/
def exHdr : Table := ⟨[⟨"Time", []⟩, ⟨"Step_number", []⟩]⟩

/-- The spec scenario actor row: `Actor_vel_abs = 0`, `Actor_vel_lat = 3`,
`Actor_vel_lng = 4`. -/
def exActorVel : Table :=
  ⟨[⟨"Actor_vel_abs", [some 0]⟩, ⟨"Actor_vel_lat", [some 3]⟩,
    ⟨"Actor_vel_lng", [some 4]⟩]⟩

/-- An actor table with absolute and lateral velocity columns but no
longitudinal-velocity column at all. -/
def exActorNoLng : Table :=
  ⟨[⟨"Actor_vel_abs", [some 0]⟩, ⟨"Actor_vel_lat", [some 3]⟩]⟩

/-- A one-row actor table whose true-latitude value is missing. -/
def exActorGap : Table :=
  ⟨[⟨"Time", [some 0]⟩, ⟨"Step_number", [some 0]⟩, ⟨"Actor_Id", [some 7]⟩,
    ⟨"Actor_type", [some 4]⟩, ⟨"Actor_pos_true_lat", [none]⟩,
    ⟨"Actor_pos_true_lng", [some 0]⟩, ⟨"Actor_heading_true", [some 0]⟩]⟩

/-- A complete two-row actor table with two distinct actors. -/
def exActorFull : Table :=
  ⟨[⟨"Time", [some 0, some 1]⟩, ⟨"Step_number", [some 0, some 1]⟩,
    ⟨"Actor_Id", [some 7, some 8]⟩, ⟨"Actor_type", [some 4, some 2]⟩,
    ⟨"Actor_pos_true_lat", [some 1, some 1]⟩,
    ⟨"Actor_pos_true_lng", [some 2, some 2]⟩,
    ⟨"Actor_heading_true", [some 3, some 3]⟩]⟩

/-- An actor table whose single actor's first `Actor_type` value is missing
(a later row carries the type). -/
def exActorNaNType : Table :=
  ⟨[⟨"Actor_Id", [some 1, some 1]⟩, ⟨"Actor_type", [none, some 4]⟩]⟩

/-- A two-row vehicle table. -/
def exPermA : Table :=
  ⟨[⟨"Time", [some 0, some 1]⟩, ⟨"Step_number", [some 5, some 6]⟩,
    ⟨"VUT_pos_lat", [some 1, some 2]⟩, ⟨"VUT_pos_lng", [some 2, some 3]⟩,
    ⟨"VUT_heading", [some 3, some 4]⟩, ⟨"VUT_vel_abs", [some 4, some 5]⟩]⟩

/-- `exPermA` with its two rows swapped (every column swapped consistently). -/
def exPermB : Table :=
  ⟨[⟨"Time", [some 1, some 0]⟩, ⟨"Step_number", [some 6, some 5]⟩,
    ⟨"VUT_pos_lat", [some 2, some 1]⟩, ⟨"VUT_pos_lng", [some 3, some 2]⟩,
    ⟨"VUT_heading", [some 4, some 3]⟩, ⟨"VUT_vel_abs", [some 5, some 4]⟩]⟩

/-- A two-row vehicle table with missing cells: the second `Time` value and
the first `VUT_heading` value are missing. -/
def exVutC1 : Table :=
  ⟨[⟨"Time", [some 0, none]⟩, ⟨"Step_number", [some 0, some 1]⟩,
    ⟨"VUT_pos_lat", [some 1, some 1]⟩, ⟨"VUT_pos_lng", [some 2, some 2]⟩,
    ⟨"VUT_heading", [none, some 3]⟩, ⟨"VUT_vel_abs", [some 4, some 4]⟩]⟩

/-- A two-row single-actor table whose second true-heading value is missing;
its second step number matches the vehicle row whose relative time is
missing. -/
def exActorC1 : Table :=
  ⟨[⟨"Time", [some 0, some 1]⟩, ⟨"Step_number", [some 0, some 1]⟩,
    ⟨"Actor_Id", [some 7, some 7]⟩, ⟨"Actor_type", [some 4, some 4]⟩,
    ⟨"Actor_pos_true_lat", [some 1, some 1]⟩,
    ⟨"Actor_pos_true_lng", [some 2, some 2]⟩,
    ⟨"Actor_heading_true", [some 3, none]⟩]⟩

/-! ## Helper lemmas -/

theorem getCol?_mem {t : Table} {n : String} {vs : List Cell}
    (h : t.getCol? n = some vs) : ∃ c ∈ t.cols, c.name = n ∧ c.vals = vs := by
  unfold Table.getCol? at h
  cases hf : t.cols.find? (fun c => c.name == n) with
  | none => rw [hf] at h; cases h
  | some c =>
    rw [hf] at h
    refine ⟨c, List.mem_of_find?_eq_some hf, ?_, ?_⟩
    · have := List.find?_some hf
      exact eq_of_beq this
    · cases h; rfl

theorem getCol?_length_of_uniform {t : Table} {n : String} {vs : List Cell}
    (hU : t.Uniform) (h : t.getCol? n = some vs) : vs.length = t.nRows := by
  obtain ⟨c, hc, _, hv⟩ := getCol?_mem h
  rw [← hv]
  exact hU c hc

theorem find?_set_self (cols : List Column) (n : String) (vs : List Cell)
    (hmem : n ∈ cols.map Column.name) :
    (cols.map (fun c => if c.name = n then ⟨n, vs⟩ else c)).find?
      (fun c => c.name == n) = some ⟨n, vs⟩ := by
  induction cols with
  | nil => cases hmem
  | cons c cs ih =>
    by_cases hc : c.name = n
    · simp [List.find?, hc]
    · have hb : (c.name == n) = false := beq_eq_false_iff_ne.mpr hc
      have hm2 : n ∈ cs.map Column.name := by
        rcases List.mem_cons.mp hmem with h | h
        · exact absurd h.symm hc
        · exact h
      simp [List.find?, hc, hb, ih hm2]

theorem find?_append_new (cols : List Column) (n : String) (vs : List Cell)
    (hmem : n ∉ cols.map Column.name) :
    (cols ++ [(⟨n, vs⟩ : Column)]).find? (fun c => c.name == n) = some ⟨n, vs⟩ := by
  induction cols with
  | nil => simp [List.find?]
  | cons c cs ih =>
    have hc : ¬ (c.name = n) := fun h => hmem (List.mem_cons.mpr (Or.inl h.symm))
    have hb : (c.name == n) = false := beq_eq_false_iff_ne.mpr hc
    have hm2 : n ∉ cs.map Column.name := fun h => hmem (List.mem_cons.mpr (Or.inr h))
    simp [List.find?, hb, ih hm2]

theorem contains_iff_mem_names (t : Table) (n : String) :
    t.names.contains n = true ↔ n ∈ t.names := by
  constructor
  · intro h
    simpa using List.mem_of_elem_eq_true h
  · intro h
    simpa using List.elem_eq_true_of_mem h

theorem getCol?_setCol_self (t : Table) (n : String) (vs : List Cell) :
    (t.setCol n vs).getCol? n = some vs := by
  unfold Table.setCol
  split
  case isTrue h =>
    have hmem : n ∈ t.cols.map Column.name := (contains_iff_mem_names t n).mp h
    simp [Table.getCol?, find?_set_self t.cols n vs hmem]
  case isFalse h =>
    have hmem : n ∉ t.cols.map Column.name := by
      intro hx
      exact h ((contains_iff_mem_names t n).mpr hx)
    simp [Table.getCol?, find?_append_new t.cols n vs hmem]

theorem find?_set_other (cols : List Column) (n m : String) (vs : List Cell)
    (hne : m ≠ n) :
    (cols.map (fun c => if c.name = n then ⟨n, vs⟩ else c)).find?
      (fun c => c.name == m) = cols.find? (fun c => c.name == m) := by
  induction cols with
  | nil => rfl
  | cons c cs ih =>
    by_cases hc : c.name = n
    · have hnm : ((n : String) == m) = false :=
        beq_eq_false_iff_ne.mpr (fun h => hne h.symm)
      have hcm : (c.name == m) = false := by rw [hc]; exact hnm
      simp [List.find?, hc, hnm, hcm, ih]
    · cases hpm : (c.name == m) <;> simp [List.find?, hc, hpm, ih]

theorem find?_append_other (cols : List Column) (n m : String) (vs : List Cell)
    (hne : m ≠ n) :
    (cols ++ [(⟨n, vs⟩ : Column)]).find? (fun c => c.name == m) =
      cols.find? (fun c => c.name == m) := by
  induction cols with
  | nil =>
    have hnm : ((n : String) == m) = false :=
      beq_eq_false_iff_ne.mpr (fun h => hne h.symm)
    simp [List.find?, hnm]
  | cons c cs ih =>
    cases hpm : (c.name == m) <;> simp [List.find?, hpm, ih]

theorem getCol?_setCol_other (t : Table) (n m : String) (vs : List Cell)
    (hne : m ≠ n) : (t.setCol n vs).getCol? m = t.getCol? m := by
  unfold Table.setCol
  split
  case isTrue h => simp [Table.getCol?, find?_set_other t.cols n m vs hne]
  case isFalse h => simp [Table.getCol?, find?_append_other t.cols n m vs hne]

/-- `dropna` past a `NaN`-propagating constant subtraction. -/
theorem dropna_map_sub (tv : List Cell) (q0 : ℚ) :
    dropna (tv.map (fun c => cellSub c (some q0))) =
      (dropna tv).map (fun a => a - q0) := by
  induction tv with
  | nil => rfl
  | cons c cs ih => cases c <;> simp [dropna, cellSub, ih] <;> simpa [dropna] using ih

theorem nonDecr_cons_cons (a b : ℚ) (l : List ℚ) :
    nonDecr (a :: b :: l) = (decide (a ≤ b) && nonDecr (b :: l)) := rfl

/-- Subtracting a constant preserves the non-decreasing test. -/
theorem nonDecr_map_sub (l : List ℚ) (q0 : ℚ) :
    nonDecr (l.map (fun a => a - q0)) = nonDecr l := by
  induction l with
  | nil => rfl
  | cons a l ih =>
    cases l with
    | nil => rfl
    | cons b l2 =>
      have hd : decide (a - q0 ≤ b - q0) = decide (a ≤ b) :=
        decide_eq_decide.mpr (sub_le_sub_iff_right q0)
      calc nonDecr ((a :: b :: l2).map (fun a => a - q0))
          = (decide (a - q0 ≤ b - q0)
              && nonDecr ((b :: l2).map (fun a => a - q0))) := rfl
        _ = (decide (a ≤ b) && nonDecr (b :: l2)) := by rw [hd, ih]
        _ = nonDecr (a :: b :: l2) := (nonDecr_cons_cons a b l2).symm

/-- On a table with all required vehicle columns, the `validate_vut` error
list is the concatenation of the five guarded messages. -/
theorem validate_vut_errors_of_complete (df : Table)
    (h : VUT_REQUIRED_COLS.filter (fun c => !(df.names.contains c)) = []) :
    (validate_vut df).1 =
      errIf (outOfRange (-90) 90 (dropna ((df.getCol? "VUT_pos_lat").getD []))) vutLatMsg
      ++ errIf (outOfRange (-180) 360 (dropna ((df.getCol? "VUT_pos_lng").getD []))) vutLngMsg
      ++ errIf (outOfRange 0 360 (dropna ((df.getCol? "VUT_heading").getD []))) vutHeadingMsg
      ++ errIf (decide (0 < (dropna ((df.getCol? "VUT_vel_abs").getD [])).length)
           && (dropna ((df.getCol? "VUT_vel_abs").getD [])).any (fun q => decide (q < 0)))
           vutVelMsg
      ++ errIf (hasDecrease (dropna ((df.getCol? "Time").getD []))) timeMonoMsg := by
  simp only [validate_vut, h, List.isEmpty_nil, if_true]

/-- On a table with all required vehicle columns, the `validate_vut` warning
list is the per-column `NaN`-count report. -/
theorem validate_vut_warnings_of_complete (df : Table)
    (h : VUT_REQUIRED_COLS.filter (fun c => !(df.names.contains c)) = []) :
    (validate_vut df).2 =
      ["VUT_pos_lat", "VUT_pos_lng", "VUT_heading"].filterMap (fun c =>
        match df.getCol? c with
        | some vs =>
          if 0 < nanCount vs then some (nanWarnMsg c (nanCount vs)) else none
        | none => none) := by
  simp only [validate_vut, h, List.isEmpty_nil, if_true]

/-- On a table with all required actor columns, the `validate_actors` error
list is the concatenation of the four guarded messages. -/
theorem validate_actors_errors_of_complete (df : Table)
    (h : ACTOR_REQUIRED_COLS.filter (fun c => !(df.names.contains c)) = []) :
    (validate_actors df).1 =
      errIf (outOfRange (-90) 90 (dropna ((df.getCol? "Actor_pos_true_lat").getD []))) actorLatMsg
      ++ errIf (outOfRange (-180) 360 (dropna ((df.getCol? "Actor_pos_true_lng").getD []))) actorLngMsg
      ++ errIf (outOfRange 0 360 (dropna ((df.getCol? "Actor_heading_true").getD []))) actorHeadingMsg
      ++ errIf (decide (0 < ((dropna ((df.getCol? "Actor_type").getD [])).filter
           (fun q => decide (q.den ≠ 1))).length)) actorTypeMsg := by
  simp only [validate_actors, h, List.isEmpty_nil, if_true]

/-- With at least one required vehicle column missing, `validate_vut`
returns only the aggregated message. -/
theorem validate_vut_of_missing (df : Table)
    (h : VUT_REQUIRED_COLS.filter (fun c => !(df.names.contains c)) ≠ []) :
    validate_vut df =
      ([missingMsg (VUT_REQUIRED_COLS.filter (fun c => !(df.names.contains c)))], []) := by
  unfold validate_vut
  rw [if_neg]
  simpa [List.isEmpty_iff] using h

/-- With at least one required actor column missing, `validate_actors`
returns only the aggregated message. -/
theorem validate_actors_of_missing (df : Table)
    (h : ACTOR_REQUIRED_COLS.filter (fun c => !(df.names.contains c)) ≠ []) :
    validate_actors df =
      ([missingMsg (ACTOR_REQUIRED_COLS.filter (fun c => !(df.names.contains c)))], []) := by
  unfold validate_actors
  rw [if_neg]
  simpa [List.isEmpty_iff] using h

/-- `validate_actors` never populates its warning list. -/
theorem validate_actors_warnings_nil (df : Table) : (validate_actors df).2 = [] := by
  simp only [validate_actors]
  split <;> rfl

theorem count_errIf_self (b : Bool) (m : String) :
    (errIf b m).count m = if b then 1 else 0 := by
  cases b <;> simp [errIf]

theorem count_errIf_other (b : Bool) {m m' : String} (h : m' ≠ m) :
    (errIf b m').count m = 0 := by
  cases b <;> simp [errIf, List.count_cons, h]

/-- The latitude/longitude/heading range flag fires iff some non-missing
value is out of range. -/
theorem outOfRange_iff (lo hi : ℚ) (l : List ℚ) :
    outOfRange lo hi l = true ↔ ∃ q ∈ l, q < lo ∨ hi < q := by
  unfold outOfRange
  simp only [Bool.and_eq_true, decide_eq_true_eq, List.any_eq_true,
    Bool.or_eq_true]
  constructor
  · rintro ⟨-, q, hq, hor⟩
    exact ⟨q, hq, hor⟩
  · rintro ⟨q, hq, hor⟩
    exact ⟨List.length_pos.mpr (List.ne_nil_of_mem hq), q, hq, hor⟩

/-- The velocity flag fires iff some non-missing value is negative. -/
theorem negVel_iff (l : List ℚ) :
    (decide (0 < l.length) && l.any (fun q => decide (q < 0))) = true ↔
      ∃ q ∈ l, q < 0 := by
  simp only [Bool.and_eq_true, decide_eq_true_eq, List.any_eq_true]
  constructor
  · rintro ⟨-, q, hq, hlt⟩
    exact ⟨q, hq, hlt⟩
  · rintro ⟨q, hq, hlt⟩
    exact ⟨List.length_pos.mpr (List.ne_nil_of_mem hq), q, hq, hlt⟩

theorem forall₂_names {c1 c2 : List Column} (h : List.Forall₂ ColPerm c1 c2) :
    c1.map Column.name = c2.map Column.name := by
  induction h with
  | nil => rfl
  | cons hcd htail ih => simp [hcd.1, ih]

/-- Row permutation preserves the column-name sequence. -/
theorem tablePerm_names {s t : Table} (h : TablePerm s t) : s.names = t.names :=
  forall₂_names h

theorem find?_forall₂ {cols1 cols2 : List Column}
    (h : List.Forall₂ ColPerm cols1 cols2) (n : String) :
    (cols1.find? (fun c => c.name == n) = none ∧
     cols2.find? (fun c => c.name == n) = none) ∨
    ∃ c d, cols1.find? (fun c => c.name == n) = some c ∧
      cols2.find? (fun c => c.name == n) = some d ∧ ColPerm c d := by
  induction h with
  | nil => exact Or.inl ⟨rfl, rfl⟩
  | @cons a b l1 l2 hcd htail ih =>
    cases hpa : (a.name == n) with
    | true =>
      have hpb : (b.name == n) = true := by rw [← hcd.1]; exact hpa
      exact Or.inr ⟨a, b, by simp [List.find?, hpa], by simp [List.find?, hpb], hcd⟩
    | false =>
      have hpb : (b.name == n) = false := by rw [← hcd.1]; exact hpa
      rcases ih with ⟨h1, h2⟩ | ⟨c, d, h1, h2, hcd2⟩
      · exact Or.inl ⟨by simp [List.find?, hpa, h1], by simp [List.find?, hpb, h2]⟩
      · exact Or.inr ⟨c, d, by simp [List.find?, hpa, h1], by simp [List.find?, hpb, h2], hcd2⟩

/-- Under a row permutation, corresponding columns either are both absent or
hold permuted value lists. -/
theorem tablePerm_getCol? {s t : Table} (h : TablePerm s t) (n : String) :
    (s.getCol? n = none ∧ t.getCol? n = none) ∨
    ∃ a b, s.getCol? n = some a ∧ t.getCol? n = some b ∧ a.Perm b := by
  rcases find?_forall₂ h n with ⟨h1, h2⟩ | ⟨c, d, h1, h2, hcd⟩
  · exact Or.inl ⟨by simp [Table.getCol?, h1], by simp [Table.getCol?, h2]⟩
  · exact Or.inr ⟨c.vals, d.vals, by simp [Table.getCol?, h1],
      by simp [Table.getCol?, h2], hcd.2⟩

/-- The non-missing parts of corresponding columns are permuted. -/
theorem tablePerm_dropna {s t : Table} (h : TablePerm s t) (n : String) :
    (dropna ((s.getCol? n).getD [])).Perm (dropna ((t.getCol? n).getD [])) := by
  rcases tablePerm_getCol? h n with ⟨h1, h2⟩ | ⟨a, b, h1, h2, hab⟩
  · rw [h1, h2]
  · rw [h1, h2]
    exact hab.filterMap id

theorem perm_any {α : Type} {l l' : List α} (h : l.Perm l') (p : α → Bool) :
    l.any p = l'.any p := by
  induction h with
  | nil => rfl
  | cons a h ih => simp [List.any_cons, ih]
  | swap a b l => simp [List.any_cons, Bool.or_left_comm]
  | trans h1 h2 ih1 ih2 => rw [ih1, ih2]

/-- The range flag is invariant under permutation of the column values. -/
theorem outOfRange_perm (lo hi : ℚ) {l l' : List ℚ} (h : l.Perm l') :
    outOfRange lo hi l = outOfRange lo hi l' := by
  unfold outOfRange
  rw [h.length_eq, perm_any h]

theorem filter_errIf_keep {p : String → Bool} (b : Bool) {m : String}
    (hp : p m = true) : (errIf b m).filter p = errIf b m := by
  cases b <;> simp [errIf, hp]

theorem filter_errIf_drop {p : String → Bool} (b : Bool) {m : String}
    (hp : p m = false) : (errIf b m).filter p = [] := by
  cases b <;> simp [errIf, hp]

theorem reconVelAbs_length (absv latv lngv : List Cell) :
    (reconVelAbs absv latv lngv).length = absv.length := by
  simp [reconVelAbs]

/-- The row-wise content of the velocity reconstruction: zero-or-missing
absolute velocities are replaced by the Pythagorean magnitude with missing
components as 0; other values are untouched. -/
theorem reconVelAbs_getD (absv latv lngv : List Cell) (i : ℕ)
    (hi : i < absv.length) :
    (reconVelAbs absv latv lngv).getD i none =
      (if (absv.getD i none).getD 0 = 0 then
        some (ratSqrt (((latv.getD i none).getD 0) * ((latv.getD i none).getD 0)
          + ((lngv.getD i none).getD 0) * ((lngv.getD i none).getD 0)))
      else absv.getD i none) := by
  unfold reconVelAbs
  rw [List.getD_eq_getElem?_getD, List.getElem?_map, List.getElem?_range hi]
  rfl

theorem mapOpt_eq_some_map {α β : Type} (f : α → Option β) (g : α → β)
    (l : List α) (h : ∀ a ∈ l, f a = some (g a)) : mapOpt f l = some (l.map g) := by
  induction l with
  | nil => rfl
  | cons a l ih =>
    simp [mapOpt, h a (List.mem_cons_self a l),
      ih (fun x hx => h x (List.mem_cons_of_mem a hx))]

theorem mapOpt_mem_inv {α β : Type} (f : α → Option β) (l : List α)
    (ys : List β) (h : mapOpt f l = some ys) :
    ∀ y ∈ ys, ∃ a ∈ l, f a = some y := by
  induction l generalizing ys with
  | nil =>
    cases h
    intro y hy
    cases hy
  | cons a l ih =>
    unfold mapOpt at h
    cases hfa : f a with
    | none => rw [hfa] at h; cases h
    | some b =>
      rw [hfa] at h
      cases hrest : mapOpt f l with
      | none => rw [hrest] at h; cases h
      | some bs =>
        rw [hrest] at h
        cases h
        intro y hy
        rcases List.mem_cons.mp hy with rfl | hy2
        · exact ⟨a, List.mem_cons_self a l, hfa⟩
        · obtain ⟨x, hx, hfx⟩ := ih bs hrest y hy2
          exact ⟨x, List.mem_cons_of_mem a hx, hfx⟩

theorem setCol_nRows (t : Table) (n : String) (vs : List Cell)
    (h : vs.length = t.nRows) : (t.setCol n vs).nRows = t.nRows := by
  unfold Table.setCol
  split
  · cases htc : t.cols with
    | nil => simp [Table.nRows, htc]
    | cons c cs =>
      by_cases hcn : c.name = n
      · have hr : t.nRows = c.vals.length := by simp [Table.nRows, htc]
        simp [Table.nRows, htc, hcn, hr ▸ h]
      · simp [Table.nRows, htc, hcn]
  · cases htc : t.cols with
    | nil =>
      have hr : t.nRows = 0 := by simp [Table.nRows, htc]
      simp [Table.nRows, htc, hr ▸ h, hr]
    | cons c cs => simp [Table.nRows, htc]

theorem setCol_uniform (t : Table) (n : String) (vs : List Cell)
    (hU : t.Uniform) (h : vs.length = t.nRows) : (t.setCol n vs).Uniform := by
  intro c hc
  rw [setCol_nRows t n vs h]
  unfold Table.setCol at hc
  split at hc
  · obtain ⟨d, hd, rfl⟩ := List.mem_map.mp hc
    by_cases hdn : d.name = n
    · simpa [hdn] using h
    · simpa [hdn] using hU d hd
  · rcases List.mem_append.mp hc with hmem | hmem
    · exact hU c hmem
    · rcases List.mem_singleton.mp hmem with rfl
      exact h

/-- A table produced by `load_vut` from a uniform parsed table is uniform. -/
theorem load_vut_some_uniform (raw vdf : Table)
    (hU : (normalize raw).Uniform) (h : load_vut raw = some vdf) :
    vdf.Uniform := by
  unfold load_vut at h
  cases ht : (normalize raw).getCol? "Time" with
  | none => simp only [ht] at h; cases h
  | some tv =>
    simp only [ht] at h
    cases h0 : tv.head? with
    | none => rw [h0] at h; cases h
    | some t0 =>
      simp only [h0] at h
      have hlen1 : (tv.map (fun c => cellSub c t0)).length = (normalize raw).nRows := by
        rw [List.length_map]
        exact getCol?_length_of_uniform hU ht
      have hU1 : ((normalize raw).setCol "t" (tv.map (fun c => cellSub c t0))).Uniform :=
        setCol_uniform _ _ _ hU hlen1
      have hn1 : ((normalize raw).setCol "t" (tv.map (fun c => cellSub c t0))).nRows
          = (normalize raw).nRows := setCol_nRows _ _ _ hlen1
      cases hva : ((normalize raw).setCol "t"
          (tv.map (fun c => cellSub c t0))).getCol? "VUT_vel_abs" with
      | none =>
        simp only [hva] at h
        cases h
        exact hU1
      | some va =>
        simp only [hva] at h
        cases h
        have hva_len : va.length =
            ((normalize raw).setCol "t" (tv.map (fun c => cellSub c t0))).nRows :=
          getCol?_length_of_uniform hU1 hva
        have hms_len : (va.map (fun c => some (c.getD 0))).length =
            ((normalize raw).setCol "t" (tv.map (fun c => cellSub c t0))).nRows := by
          rw [List.length_map]
          exact hva_len
        have hU2 := setCol_uniform _ "VUT_vel_ms" _ hU1 hms_len
        have hn2 := setCol_nRows _ "VUT_vel_ms" (va.map (fun c => some (c.getD 0))) hms_len
        refine setCol_uniform _ "VUT_vel_kmh" _ hU2 ?_
        rw [List.length_map, List.length_map, hn2]
        exact hva_len

theorem safe_col_length (df : Table) (n : String) (d : ℚ) (hU : df.Uniform) :
    (safe_col df n d).length = df.nRows := by
  unfold safe_col
  cases hc : df.getCol? n with
  | none => simp
  | some vs => simp [getCol?_length_of_uniform hU hc]

theorem safe_col_isSome (df : Table) (n : String) (d : ℚ) :
    ∀ v ∈ safe_col df n d, v.isSome = true := by
  unfold safe_col
  cases hc : df.getCol? n with
  | none =>
    intro v hv
    rw [List.eq_of_mem_replicate hv]
    rfl
  | some vs =>
    intro v hv
    obtain ⟨c, -, rfl⟩ := List.mem_map.mp hv
    cases c <;> rfl

theorem selIdx_length (vals : List Cell) (idxs : List ℕ) :
    (selIdx vals idxs).length = idxs.length := by
  simp [selIdx]

theorem getD_map_of_lt {α β : Type} (f : α → β) (l : List α) (i : ℕ)
    (d : α) (d2 : β) (hi : i < l.length) :
    (l.map f).getD i d2 = f (l.getD i d) := by
  rw [List.getD_eq_getElem?_getD, List.getD_eq_getElem?_getD, List.getElem?_map,
    List.getElem?_eq_getElem hi]
  rfl

/-- What a successful actor-loop iteration guarantees: the entry carries the
iterated id, its four trajectory arrays all have the actor's row-subset
length, and every heading entry is a present value. -/
theorem buildActor_spec (vdf adf : Table) (ids : List Cell) (aid : Cell)
    (a : ActorOut) (h : buildActor vdf adf ids aid = some a) :
    a.actor_id = aid ∧
    a.traj_lat.length = (maskIdx ids aid).length ∧
    a.traj_lng.length = (maskIdx ids aid).length ∧
    a.traj_heading.length = (maskIdx ids aid).length ∧
    a.traj_t.length = (maskIdx ids aid).length ∧
    (∀ v ∈ a.traj_heading, v.isSome = true) ∧
    (adf.getCol? "Actor_heading_true" = none →
      a.traj_heading = List.replicate (maskIdx ids aid).length (some 0)) ∧
    (∀ hv, adf.getCol? "Actor_heading_true" = some hv →
      ∀ i, i < (maskIdx ids aid).length →
        ((selIdx hv (maskIdx ids aid)).getD i none = none →
          a.traj_heading.getD i none = some 0) ∧
        (∀ q, (selIdx hv (maskIdx ids aid)).getD i none = some q →
          a.traj_heading.getD i none = some (round4 q))) ∧
    (a.traj_t = [] ∨
      ∃ stepv vsteps, adf.getCol? "Step_number" = some stepv ∧
        vdf.getCol? "Step_number" = some vsteps ∧
        ∀ i, i < (maskIdx ids aid).length →
          ((vsteps.findIdx? (fun c => cellEqCmp c
              ((selIdx stepv (maskIdx ids aid)).getD i none)) = none →
            a.traj_t.getD i none = some 0) ∧
          (∀ j, vsteps.findIdx? (fun c => cellEqCmp c
              ((selIdx stepv (maskIdx ids aid)).getD i none)) = some j →
            ((((vdf.getCol? "t").getD []).getD j none = none →
              a.traj_t.getD i none = none) ∧
            (∀ q, ((vdf.getCol? "t").getD []).getD j none = some q →
              a.traj_t.getD i none = some (round4 q)))))) := by
  unfold buildActor at h
  cases hty : actorTypeOf adf ids aid with
  | none => rw [hty] at h; cases h
  | some z =>
    simp only [hty] at h
    cases hlat : adf.getCol? "Actor_pos_true_lat" with
    | none => simp only [hlat] at h; cases h
    | some latv =>
      cases hlng : adf.getCol? "Actor_pos_true_lng" with
      | none => simp only [hlat, hlng] at h; cases h
      | some lngv =>
        cases hstep : adf.getCol? "Step_number" with
        | none => simp only [hlat, hlng, hstep] at h; cases h
        | some stepv =>
          simp only [hlat, hlng, hstep] at h
          have hheading : ∀ hv : List Cell,
              ∀ v ∈ (selIdx hv (maskIdx ids aid)).map headingVal, v.isSome = true := by
            intro hv v hvm
            obtain ⟨c, -, rfl⟩ := List.mem_map.mp hvm
            cases c <;> rfl
          cases hsteps : selIdx stepv (maskIdx ids aid) with
          | nil =>
            simp only [hsteps] at h
            cases h
            have hidx : (maskIdx ids aid).length = 0 := by
              rw [← selIdx_length stepv, hsteps]
              rfl
            refine ⟨rfl, ?_, ?_, ?_, ?_, ?_, ?_, ?_, Or.inl rfl⟩
            · simp [List.length_map, selIdx_length]
            · simp [List.length_map, selIdx_length]
            · cases hhd : adf.getCol? "Actor_heading_true" <;>
                simp [hhd, List.length_map, selIdx_length]
            · simp [hidx]
            · cases hhd : adf.getCol? "Actor_heading_true" with
              | none =>
                intro v hv
                simp only [hhd] at hv
                rw [List.eq_of_mem_replicate hv]
                rfl
              | some hv2 =>
                intro v hv
                simp only [hhd] at hv
                exact hheading hv2 v hv
            · intro hhd
              simp only [hhd]
            · intro hv2 hhd i hi
              simp only [hhd]
              have hi2 : i < (selIdx hv2 (maskIdx ids aid)).length := by
                rw [selIdx_length]
                exact hi
              rw [getD_map_of_lt headingVal _ i none none hi2]
              constructor
              · intro hc
                rw [hc]
                rfl
              · intro q hq
                rw [hq]
                rfl
          | cons s ss =>
            simp only [hsteps] at h
            cases hvst : vdf.getCol? "Step_number" with
            | none => simp only [hvst] at h; cases h
            | some vsteps =>
              simp only [hvst] at h
              cases h
              have hlen : (s :: ss).length = (maskIdx ids aid).length := by
                rw [← hsteps, selIdx_length]
              refine ⟨rfl, ?_, ?_, ?_, ?_, ?_, ?_, ?_, ?_⟩
              · simp [List.length_map, selIdx_length]
              · simp [List.length_map, selIdx_length]
              · cases hhd : adf.getCol? "Actor_heading_true" <;>
                  simp [hhd, List.length_map, selIdx_length]
              · simpa [List.length_map] using hlen
              · cases hhd : adf.getCol? "Actor_heading_true" with
                | none =>
                  intro v hv
                  simp only [hhd] at hv
                  rw [List.eq_of_mem_replicate hv]
                  rfl
                | some hv2 =>
                  intro v hv
                  simp only [hhd] at hv
                  exact hheading hv2 v hv
              · intro hhd
                simp only [hhd]
              · intro hv2 hhd i hi
                simp only [hhd]
                have hi2 : i < (selIdx hv2 (maskIdx ids aid)).length := by
                  rw [selIdx_length]
                  exact hi
                rw [getD_map_of_lt headingVal _ i none none hi2]
                constructor
                · intro hc
                  rw [hc]
                  rfl
                · intro q hq
                  rw [hq]
                  rfl
              · refine Or.inr ⟨stepv, vsteps, rfl, rfl, ?_⟩
                intro i hi
                have hi2 : i < (s :: ss).length := by
                  rw [hlen]
                  exact hi
                rw [hsteps,
                  getD_map_of_lt (trajTimeVal vsteps ((vdf.getCol? "t").getD []))
                    (s :: ss) i none none hi2]
                constructor
                · intro hfind
                  unfold trajTimeVal
                  simp only [hfind]
                · intro j hfind
                  unfold trajTimeVal
                  simp only [hfind]
                  constructor
                  · intro htc
                    rw [htc]
                    rfl
                  · intro q htc
                    rw [htc]
                    rfl

/-! ## Claim theorems -/

/-- C10: for every input table, `validate_actors` returns an empty warnings
list — actor validation can produce errors but never a warning. -/
theorem C10_no_actor_warnings (df : Table) : (validate_actors df).2 = [] :=
  validate_actors_warnings_nil df

/-- C5: a table missing at least one required column makes `validate_vut`
(and likewise `validate_actors`) return exactly one error — the aggregated
missing-columns message listing all missing names — and no warnings;
validation short-circuits before any value checks. -/
theorem C5_missing_columns_short_circuit (df : Table) :
    (VUT_REQUIRED_COLS.filter (fun c => !(df.names.contains c)) ≠ [] →
      validate_vut df =
        ([missingMsg (VUT_REQUIRED_COLS.filter (fun c => !(df.names.contains c)))], [])) ∧
    (ACTOR_REQUIRED_COLS.filter (fun c => !(df.names.contains c)) ≠ [] →
      validate_actors df =
        ([missingMsg (ACTOR_REQUIRED_COLS.filter (fun c => !(df.names.contains c)))], [])) := by
  exact ⟨validate_vut_of_missing df, validate_actors_of_missing df⟩

/-- C5 witness: a table holding only a `Time` column misses vehicle- and
actor-required columns, and each validator returns exactly the aggregated
message and nothing else. -/
theorem C5_witness :
    VUT_REQUIRED_COLS.filter (fun c => !(exVutMissing.names.contains c)) ≠ [] ∧
    ACTOR_REQUIRED_COLS.filter (fun c => !(exVutMissing.names.contains c)) ≠ [] ∧
    validate_vut exVutMissing =
      (["Missing required columns: Step_number, VUT_pos_lat, VUT_pos_lng, VUT_heading, VUT_vel_abs"], []) ∧
    validate_actors exVutMissing =
      (["Missing required columns: Step_number, Actor_Id, Actor_type, Actor_pos_true_lat, Actor_pos_true_lng, Actor_heading_true"], []) := by
  refine ⟨by decide, by decide, ?_, ?_⟩
  · rw [(C5_missing_columns_short_circuit exVutMissing).1 (by decide)]
    decide
  · rw [(C5_missing_columns_short_circuit exVutMissing).2 (by decide)]
    decide

/-- C9: a table that parses with a `Time` column but zero data rows makes
`load_vut` fail (the `iloc[0]` access is out of bounds) instead of returning
a table. -/
theorem C9_empty_table_fails (raw : Table) (hU : (normalize raw).Uniform)
    (hT : ∃ tv, (normalize raw).getCol? "Time" = some tv)
    (h0 : (normalize raw).nRows = 0) : load_vut raw = none := by
  obtain ⟨tv, htv⟩ := hT
  have hlen : tv.length = 0 := by
    rw [getCol?_length_of_uniform hU htv, h0]
  have : tv = [] := List.eq_nil_of_length_eq_zero hlen
  subst this
  unfold load_vut
  simp [htv]

/-- C9 witness: the header-only table with `Time` and `Step_number` columns
and no rows. -/
theorem C9_witness :
    exHdr.Uniform ∧ load_vut exHdr = none :=
  ⟨by decide, C9_empty_table_fails exHdr (by decide) ⟨[], by decide⟩ (by decide)⟩

/-- C1 counterexample: `evaluate` produces a result in which an actor's
`lat` trajectory array carries a missing value (`NaN`) as a gap — the claim
that every missing numeric value in the output arrays is replaced by 0.0 is
false for the actor `lat`/`lng` arrays, which are built without a
missing-value guard. -/
theorem C1_counterexample :
    (evaluate exVut (some (some exActorGap)) "tc" "r0").map
      (fun r => r.actors.map (fun a => a.traj_lat)) = some [[none]] := by
  decide

/-- C2 counterexample: with `Actor_vel_abs` and `Actor_vel_lat` present but
the `Actor_vel_lng` column entirely absent, `load_actors` raises a
`KeyError` (modelled `none`) instead of treating the longitudinal component
as 0.0. -/
theorem C2_counterexample :
    "Actor_vel_abs" ∈ (normalize exActorNoLng).names ∧
    "Actor_vel_lat" ∈ (normalize exActorNoLng).names ∧
    load_actors exActorNoLng = none := by
  refine ⟨by decide, by decide, by decide⟩

/-- C2 (amended): when the absolute-, lateral- AND longitudinal-velocity
columns all exist, `load_actors` replaces each row's absolute velocity that
is zero or missing by `sqrt(lat^2 + lng^2)` with missing components read as
0.0, and leaves every non-zero absolute velocity unchanged.  (The claim as
frozen also covered an entirely absent longitudinal column, on which the
code raises `KeyError` instead.) -/
theorem C2_vel_reconstruction (raw : Table) (absv latv lngv : List Cell)
    (ha : (normalize raw).getCol? "Actor_vel_abs" = some absv)
    (hl : (normalize raw).getCol? "Actor_vel_lat" = some latv)
    (hn : (normalize raw).getCol? "Actor_vel_lng" = some lngv) :
    ∃ df, load_actors raw = some df ∧
      df.getCol? "Actor_vel_abs" = some (reconVelAbs absv latv lngv) ∧
      (reconVelAbs absv latv lngv).length = absv.length ∧
      ∀ i, i < absv.length →
        (reconVelAbs absv latv lngv).getD i none =
          (if (absv.getD i none).getD 0 = 0 then
            some (ratSqrt (((latv.getD i none).getD 0) * ((latv.getD i none).getD 0)
              + ((lngv.getD i none).getD 0) * ((lngv.getD i none).getD 0)))
          else absv.getD i none) := by
  unfold load_actors
  simp only [ha, hl, hn]
  exact ⟨_, rfl, getCol?_setCol_self _ _ _, reconVelAbs_length _ _ _,
    fun i hi => reconVelAbs_getD _ _ _ i hi⟩

/-- C2 witness: the scenario row `Actor_vel_abs = 0`, `Actor_vel_lat = 3`,
`Actor_vel_lng = 4` is rewritten to `Actor_vel_abs = 5.0`. -/
theorem C2_witness :
    (normalize exActorVel).getCol? "Actor_vel_abs" = some [some 0] ∧
    ∃ df, load_actors exActorVel = some df ∧
      df.getCol? "Actor_vel_abs" = some [some 5] := by
  refine ⟨by decide, ?_⟩
  obtain ⟨df, hdf, hcol, -, -⟩ :=
    C2_vel_reconstruction exActorVel [some 0] [some 3] [some 4]
      (by decide) (by decide) (by decide)
  refine ⟨df, hdf, ?_⟩
  rw [hcol]
  with_unfolding_all decide

/-- C3 counterexample: `evaluate` has no `try`/`except` around the actor
loading — a parse failure on provided actor bytes aborts the whole
evaluation (`none`), instead of degrading to a vehicle-only result. -/
theorem C3_counterexample :
    evaluate exVut (some none) "tc" "r0" = none := by
  decide

/-- C4 counterexample: when the first `Time` value is missing, `load_vut`
still returns a table, but `t[0]` is `NaN` (the subtraction propagates the
missing value), not 0.0. -/
theorem C4_counterexample :
    (load_vut exVutNaNTime).bind (fun df => df.getCol? "t") = some [none] := by
  decide

/-- C3 (amended): `evaluate` treats actor data as absent only when no actor
bytes are given — then it returns a complete vehicle-only result with an
empty actor list and the vehicle validation outcome.  A loading failure on
actor bytes that were provided propagates out of `evaluate` and aborts the
whole evaluation; the caller (the upload endpoint), not `evaluate`, replaces
unusable actor files by `None`. -/
theorem C3_actor_failure_propagates (raw : Table) (tc rid : String) :
    evaluate raw (some none) tc rid = none ∧
    ∀ res, evaluate raw none tc rid = some res →
      res.actors = [] ∧
      ∃ vdf, load_vut raw = some vdf ∧
        res.errors = (validate_vut vdf).1 ∧
        res.warnings = (validate_vut vdf).2 := by
  constructor
  · unfold evaluate
    cases hv : load_vut raw <;> simp
  · intro res hres
    unfold evaluate at hres
    cases hv : load_vut raw with
    | none => rw [hv] at hres; cases hres
    | some vdf =>
      rw [hv] at hres
      cases hres
      exact ⟨rfl, vdf, rfl, rfl, rfl⟩

/-- C3 witness: on the concrete vehicle table, a failing actor parse aborts
the evaluation, while absent actor bytes give a vehicle-only result. -/
theorem C3_witness :
    evaluate exVut (some none) "tc" "r0" = none ∧
    ∃ res, evaluate exVut none "tc" "r0" = some res ∧ res.actors = [] := by
  have h := C3_actor_failure_propagates exVut "tc" "r0"
  refine ⟨h.1, ?_⟩
  cases hres : evaluate exVut none "tc" "r0" with
  | none => exact absurd hres (by decide)
  | some res => exact ⟨res, rfl, (h.2 res hres).1⟩

/-- C4 (amended): on any parsed vehicle table whose `Time` column is present
and whose first `Time` value is present, `load_vut` adds the column
`t = Time - Time[0]` (missing `Time` entries give missing `t` entries),
`t[0]` is exactly 0.0, and the non-missing part of `t` is non-decreasing iff
the non-missing part of `Time` is.  (The claim as frozen fails when the first
`Time` value is missing: then every `t` entry, `t[0]` included, is `NaN`.) -/
theorem C4_relative_time (raw : Table) (tv : List Cell) (q0 : ℚ)
    (htime : (normalize raw).getCol? "Time" = some tv)
    (h0 : tv.head? = some (some q0)) :
    ∃ df, load_vut raw = some df ∧
      df.getCol? "t" = some (tv.map (fun c => cellSub c (some q0))) ∧
      (tv.map (fun c => cellSub c (some q0))).head? = some (some 0) ∧
      nonDecr (dropna (tv.map (fun c => cellSub c (some q0)))) =
        nonDecr (dropna tv) := by
  have hhead : (tv.map (fun c => cellSub c (some q0))).head? = some (some 0) := by
    rw [List.head?_map, h0]
    simp [cellSub]
  have hmono : nonDecr (dropna (tv.map (fun c => cellSub c (some q0)))) =
      nonDecr (dropna tv) := by
    rw [dropna_map_sub, nonDecr_map_sub]
  unfold load_vut
  simp only [htime, h0]
  have ht1 : ((normalize raw).setCol "t"
      (tv.map (fun c => cellSub c (some q0)))).getCol? "t" =
      some (tv.map (fun c => cellSub c (some q0))) :=
    getCol?_setCol_self _ _ _
  cases hva : ((normalize raw).setCol "t"
      (tv.map (fun c => cellSub c (some q0)))).getCol? "VUT_vel_abs" with
  | none =>
    simp only [hva]
    exact ⟨_, rfl, ht1, hhead, hmono⟩
  | some va =>
    simp only [hva]
    refine ⟨_, rfl, ?_, hhead, hmono⟩
    rw [getCol?_setCol_other _ _ _ _ (by decide),
        getCol?_setCol_other _ _ _ _ (by decide), ht1]

/-- C4 witness: the two-row vehicle table with `Time = [0, 1]`. -/
theorem C4_witness :
    (normalize exVut).getCol? "Time" = some [some 0, some 1] ∧
    ∃ df, load_vut exVut = some df ∧
      df.getCol? "t" =
        some ([some 0, some 1].map (fun c => cellSub c (some 0))) ∧
      ([some 0, some 1].map (fun c => cellSub c (some 0))).head? =
        some (some 0) ∧
      nonDecr (dropna ([some 0, some 1].map (fun c => cellSub c (some 0)))) =
        nonDecr (dropna [some 0, some 1]) :=
  ⟨by decide, C4_relative_time exVut [some 0, some 1] 0 (by decide) (by decide)⟩

/-- C6: on a vehicle table with all required columns, each of the four range
rules contributes its one column-naming error exactly when some non-missing
value violates it (so an entirely missing column yields no range error, and
there is never more than one error per rule), and the one-row scenario with
`VUT_pos_lat = 95` yields exactly the latitude range error. -/
theorem C6_range_errors (df : Table)
    (h : VUT_REQUIRED_COLS.filter (fun c => !(df.names.contains c)) = []) :
    ((validate_vut df).1.count vutLatMsg
      = if ∃ q ∈ dropna ((df.getCol? "VUT_pos_lat").getD []), q < -90 ∨ 90 < q
        then 1 else 0) ∧
    ((validate_vut df).1.count vutLngMsg
      = if ∃ q ∈ dropna ((df.getCol? "VUT_pos_lng").getD []), q < -180 ∨ 360 < q
        then 1 else 0) ∧
    ((validate_vut df).1.count vutHeadingMsg
      = if ∃ q ∈ dropna ((df.getCol? "VUT_heading").getD []), q < 0 ∨ 360 < q
        then 1 else 0) ∧
    ((validate_vut df).1.count vutVelMsg
      = if ∃ q ∈ dropna ((df.getCol? "VUT_vel_abs").getD []), q < 0
        then 1 else 0) ∧
    validate_vut exVutScen = ([vutLatMsg], []) := by
  have he := validate_vut_errors_of_complete df h
  refine ⟨?_, ?_, ?_, ?_, by decide⟩ <;> rw [he] <;> simp only [List.count_append]
  · rw [count_errIf_self,
      count_errIf_other _ (show vutLngMsg ≠ vutLatMsg by decide),
      count_errIf_other _ (show vutHeadingMsg ≠ vutLatMsg by decide),
      count_errIf_other _ (show vutVelMsg ≠ vutLatMsg by decide),
      count_errIf_other _ (show timeMonoMsg ≠ vutLatMsg by decide)]
    simp only [Nat.add_zero]
    exact if_congr (outOfRange_iff _ _ _) rfl rfl
  · rw [count_errIf_self,
      count_errIf_other _ (show vutLatMsg ≠ vutLngMsg by decide),
      count_errIf_other _ (show vutHeadingMsg ≠ vutLngMsg by decide),
      count_errIf_other _ (show vutVelMsg ≠ vutLngMsg by decide),
      count_errIf_other _ (show timeMonoMsg ≠ vutLngMsg by decide)]
    simp only [Nat.add_zero, Nat.zero_add]
    exact if_congr (outOfRange_iff _ _ _) rfl rfl
  · rw [count_errIf_self,
      count_errIf_other _ (show vutLatMsg ≠ vutHeadingMsg by decide),
      count_errIf_other _ (show vutLngMsg ≠ vutHeadingMsg by decide),
      count_errIf_other _ (show vutVelMsg ≠ vutHeadingMsg by decide),
      count_errIf_other _ (show timeMonoMsg ≠ vutHeadingMsg by decide)]
    simp only [Nat.add_zero, Nat.zero_add]
    exact if_congr (outOfRange_iff _ _ _) rfl rfl
  · rw [count_errIf_self,
      count_errIf_other _ (show vutLatMsg ≠ vutVelMsg by decide),
      count_errIf_other _ (show vutLngMsg ≠ vutVelMsg by decide),
      count_errIf_other _ (show vutHeadingMsg ≠ vutVelMsg by decide),
      count_errIf_other _ (show timeMonoMsg ≠ vutVelMsg by decide)]
    simp only [Nat.add_zero, Nat.zero_add]
    exact if_congr (negVel_iff _) rfl rfl

/-- C6 witness: the one-row scenario table, which has all required columns;
the latitude count is 1 and the other range-error counts are 0. -/
theorem C6_witness :
    VUT_REQUIRED_COLS.filter (fun c => !(exVutScen.names.contains c)) = [] ∧
    (((validate_vut exVutScen).1.count vutLatMsg
      = if ∃ q ∈ dropna ((exVutScen.getCol? "VUT_pos_lat").getD []), q < -90 ∨ 90 < q
        then 1 else 0) ∧
    ((validate_vut exVutScen).1.count vutLngMsg
      = if ∃ q ∈ dropna ((exVutScen.getCol? "VUT_pos_lng").getD []), q < -180 ∨ 360 < q
        then 1 else 0) ∧
    ((validate_vut exVutScen).1.count vutHeadingMsg
      = if ∃ q ∈ dropna ((exVutScen.getCol? "VUT_heading").getD []), q < 0 ∨ 360 < q
        then 1 else 0) ∧
    ((validate_vut exVutScen).1.count vutVelMsg
      = if ∃ q ∈ dropna ((exVutScen.getCol? "VUT_vel_abs").getD []), q < 0
        then 1 else 0) ∧
    validate_vut exVutScen = ([vutLatMsg], [])) :=
  ⟨by decide, C6_range_errors exVutScen (by decide)⟩

/-- C7 counterexample: swapping the two rows of a vehicle table changes the
error set — the `Time` monotonicity check is order-sensitive, so
`validate_vut` is not invariant under row permutations. -/
theorem C7_counterexample :
    TablePerm exPermA exPermB ∧
    (validate_vut exPermA).1 ≠ (validate_vut exPermB).1 := by
  constructor
  · refine List.Forall₂.cons ⟨rfl, List.Perm.swap _ _ _⟩ ?_
    refine List.Forall₂.cons ⟨rfl, List.Perm.swap _ _ _⟩ ?_
    refine List.Forall₂.cons ⟨rfl, List.Perm.swap _ _ _⟩ ?_
    refine List.Forall₂.cons ⟨rfl, List.Perm.swap _ _ _⟩ ?_
    refine List.Forall₂.cons ⟨rfl, List.Perm.swap _ _ _⟩ ?_
    refine List.Forall₂.cons ⟨rfl, List.Perm.swap _ _ _⟩ ?_
    exact List.Forall₂.nil
  · decide

/-- C7 (amended): under any row permutation, `validate_actors` returns the
identical result, and `validate_vut` returns the identical warnings and the
identical errors apart from the `Time`-monotonicity error, which is
order-sensitive (the four range checks and the missing-columns check are
permutation-invariant). -/
theorem C7_permutation_invariance (s t : Table) (h : TablePerm s t) :
    validate_actors s = validate_actors t ∧
    (validate_vut s).1.filter (fun m => !(m == timeMonoMsg)) =
      (validate_vut t).1.filter (fun m => !(m == timeMonoMsg)) ∧
    (validate_vut s).2 = (validate_vut t).2 := by
  have hnames := tablePerm_names h
  refine ⟨?_, ?_, ?_⟩
  · by_cases hm : ACTOR_REQUIRED_COLS.filter (fun c => !(s.names.contains c)) = []
    · have hm2 : ACTOR_REQUIRED_COLS.filter (fun c => !(t.names.contains c)) = [] := by
        rw [← hnames]; exact hm
      have herr : (validate_actors s).1 = (validate_actors t).1 := by
        rw [validate_actors_errors_of_complete s hm,
            validate_actors_errors_of_complete t hm2,
            outOfRange_perm _ _ (tablePerm_dropna h "Actor_pos_true_lat"),
            outOfRange_perm _ _ (tablePerm_dropna h "Actor_pos_true_lng"),
            outOfRange_perm _ _ (tablePerm_dropna h "Actor_heading_true"),
            ((tablePerm_dropna h "Actor_type").filter _).length_eq]
      exact Prod.ext herr
        ((validate_actors_warnings_nil s).trans
          (validate_actors_warnings_nil t).symm)
    · have hm2 : ACTOR_REQUIRED_COLS.filter (fun c => !(t.names.contains c)) ≠ [] := by
        rw [← hnames]; exact hm
      rw [validate_actors_of_missing s hm, validate_actors_of_missing t hm2, hnames]
  · by_cases hm : VUT_REQUIRED_COLS.filter (fun c => !(s.names.contains c)) = []
    · have hm2 : VUT_REQUIRED_COLS.filter (fun c => !(t.names.contains c)) = [] := by
        rw [← hnames]; exact hm
      rw [validate_vut_errors_of_complete s hm,
          validate_vut_errors_of_complete t hm2,
          outOfRange_perm _ _ (tablePerm_dropna h "VUT_pos_lat"),
          outOfRange_perm _ _ (tablePerm_dropna h "VUT_pos_lng"),
          outOfRange_perm _ _ (tablePerm_dropna h "VUT_heading"),
          (tablePerm_dropna h "VUT_vel_abs").length_eq,
          perm_any (tablePerm_dropna h "VUT_vel_abs")]
      simp only [List.filter_append]
      rw [filter_errIf_keep _ (by decide), filter_errIf_keep _ (by decide),
          filter_errIf_keep _ (by decide), filter_errIf_keep _ (by decide),
          filter_errIf_drop _ (by decide), filter_errIf_drop _ (by decide)]
    · have hm2 : VUT_REQUIRED_COLS.filter (fun c => !(t.names.contains c)) ≠ [] := by
        rw [← hnames]; exact hm
      rw [validate_vut_of_missing s hm, validate_vut_of_missing t hm2, hnames]
  · by_cases hm : VUT_REQUIRED_COLS.filter (fun c => !(s.names.contains c)) = []
    · have hm2 : VUT_REQUIRED_COLS.filter (fun c => !(t.names.contains c)) = [] := by
        rw [← hnames]; exact hm
      rw [validate_vut_warnings_of_complete s hm,
          validate_vut_warnings_of_complete t hm2]
      apply List.filterMap_congr
      intro c hc
      rcases tablePerm_getCol? h c with ⟨h1, h2⟩ | ⟨a, b, h1, h2, hab⟩
      · rw [h1, h2]
      · rw [h1, h2]
        have hcnt : nanCount a = nanCount b := hab.countP_eq _
        rw [nanCount] at hcnt
        simp only [nanCount, hcnt]
    · rw [validate_vut_of_missing s hm,
          validate_vut_of_missing t (by rw [← hnames]; exact hm)]

/-- C7 witness: the concrete two-row table and its row swap, on which both
validators agree up to the `Time` error. -/
theorem C7_witness :
    TablePerm exPermA exPermB ∧
    validate_actors exPermA = validate_actors exPermB ∧
    (validate_vut exPermA).1.filter (fun m => !(m == timeMonoMsg)) =
      (validate_vut exPermB).1.filter (fun m => !(m == timeMonoMsg)) ∧
    (validate_vut exPermA).2 = (validate_vut exPermB).2 := by
  have hp : TablePerm exPermA exPermB := by
    refine List.Forall₂.cons ⟨rfl, List.Perm.swap _ _ _⟩ ?_
    refine List.Forall₂.cons ⟨rfl, List.Perm.swap _ _ _⟩ ?_
    refine List.Forall₂.cons ⟨rfl, List.Perm.swap _ _ _⟩ ?_
    refine List.Forall₂.cons ⟨rfl, List.Perm.swap _ _ _⟩ ?_
    refine List.Forall₂.cons ⟨rfl, List.Perm.swap _ _ _⟩ ?_
    refine List.Forall₂.cons ⟨rfl, List.Perm.swap _ _ _⟩ ?_
    exact List.Forall₂.nil
  exact ⟨hp, C7_permutation_invariance _ _ hp⟩

/-- C8 counterexample: an actor table with rows and an `Actor_Id` column on
which `extract_actors` nevertheless fails: the first `Actor_type` value of
the actor's row subset is missing and `int(nan)` raises, so enumeration does
not return the first non-missing type value. -/
theorem C8_counterexample :
    (normalize exActorNaNType).getCol? "Actor_Id" ≠ none ∧
    (normalize exActorNaNType).nRows ≠ 0 ∧
    extract_actors exActorNaNType = none := by
  refine ⟨by decide, by decide, by decide⟩

/-- C8 (amended): `extract_actors` returns the empty list when the table has
no rows or no `Actor_Id` column; otherwise — provided the FIRST `Actor_type`
value of each actor's row subset is present when the type column exists — it
returns one entry per distinct actor identifier in first-appearance order,
whose type code is `int()` of that first value (truncation), defaulting to 0
when the type column is absent.  (The claim as frozen said "first
non-missing value": the code takes the first value outright and fails on a
missing one.) -/
theorem C8_enumeration (raw df : Table) (hload : load_actors raw = some df) :
    (df.getCol? "Actor_Id" = none → extract_actors raw = some []) ∧
    ∀ ids, df.getCol? "Actor_Id" = some ids →
      (ids = [] → extract_actors raw = some []) ∧
      ((∀ a ∈ dedupFirst ids, ∀ tys, df.getCol? "Actor_type" = some tys →
          ∃ q, (selIdx tys (maskIdx ids a)).head? = some (some q)) →
        ∃ l, extract_actors raw = some l ∧
          l.map ActorInfo.actor_id = dedupFirst ids ∧
          ∀ info ∈ l,
            (df.getCol? "Actor_type" = none → info.actor_type = 0) ∧
            ∀ tys, df.getCol? "Actor_type" = some tys →
              ∃ q, (selIdx tys (maskIdx ids info.actor_id)).head? = some (some q) ∧
                info.actor_type = pyInt q) := by
  constructor
  · intro h0
    unfold extract_actors
    simp only [hload, h0]
  · intro ids hids
    constructor
    · intro h0
      subst h0
      unfold extract_actors
      simp only [hload, hids]
      rfl
    · intro htys
      have hf : ∀ a ∈ dedupFirst ids,
          (actorTypeOf df ids a).map (fun z =>
            ({ actor_id := a, actor_type := z,
               actor_type_name := actorTypeName z } : ActorInfo)) =
          some ⟨a, (actorTypeOf df ids a).getD 0,
            actorTypeName ((actorTypeOf df ids a).getD 0)⟩ := by
        intro a ha
        cases hty : df.getCol? "Actor_type" with
        | none => simp [actorTypeOf, hty]
        | some tys =>
          obtain ⟨q, hq⟩ := htys a ha tys hty
          simp [actorTypeOf, hty, hq]
      refine ⟨(dedupFirst ids).map (fun a =>
        ⟨a, (actorTypeOf df ids a).getD 0,
          actorTypeName ((actorTypeOf df ids a).getD 0)⟩), ?_, ?_, ?_⟩
      · unfold extract_actors
        simp only [hload, hids]
        exact mapOpt_eq_some_map _ _ _ hf
      · rw [List.map_map]
        exact List.map_id _
      · intro info hinfo
        obtain ⟨a, ha, hga⟩ := List.mem_map.mp hinfo
        constructor
        · intro hty
          rw [← hga]
          simp [actorTypeOf, hty]
        · intro tys hty
          obtain ⟨q, hq⟩ := htys a ha tys hty
          refine ⟨q, ?_, ?_⟩
          · rw [← hga]
            exact hq
          · rw [← hga]
            simp [actorTypeOf, hty, hq]

/-- C1 (amended): for every result `evaluate` produces, each vehicle channel
array has the vehicle table's row count, an absent channel column yields the
all-default array `0.0`, a present column yields its values rounded with
every missing/`NaN` value replaced by the default 0.0, and each actor's four
trajectory arrays have that actor's row-subset length, with every heading
entry present: a missing heading value is replaced by 0.0 (an absent heading
column by an all-`0.0` array) and a present one rounded; an actor `t` entry
is 0.0 when its step number has no vehicle match, the rounded matched
relative time when that is present, and `NaN` when the matched relative time
is itself missing.  (The claim as frozen also asserted gap-freedom of the
actor `lat`/`lng` arrays; those are built without a missing-value guard and
can carry `NaN` gaps, as the counterexample shows.) -/
theorem C1_lengths_and_defaults (vutRaw : Table) (actorArg : Option (Option Table))
    (tc rid : String) (res : EvalResult)
    (hU : (normalize vutRaw).Uniform)
    (h : evaluate vutRaw actorArg tc rid = some res) :
    ∃ vdf, load_vut vutRaw = some vdf ∧
      (∀ p ∈ res.vut, p.2.length = vdf.nRows ∧ ∀ v ∈ p.2, v.isSome = true) ∧
      (∀ ch ∈ VUT_CHANNELS,
        (vdf.getCol? ch.2 = none →
          (ch.1, List.replicate vdf.nRows ((some 0 : OutVal))) ∈ res.vut) ∧
        (∀ vs, vdf.getCol? ch.2 = some vs →
          ∃ arr, (ch.1, arr) ∈ res.vut ∧ arr.length = vs.length ∧
            ∀ i, i < vs.length →
              (vs.getD i none = none → arr.getD i none = some 0) ∧
              (∀ q, vs.getD i none = some q → arr.getD i none = some (round6 q)))) ∧
      (∀ a ∈ res.actors,
        ∃ raw adf ids, actorArg = some (some raw) ∧ load_actors raw = some adf ∧
          adf.getCol? "Actor_Id" = some ids ∧
          a.traj_lat.length = (maskIdx ids a.actor_id).length ∧
          a.traj_lng.length = (maskIdx ids a.actor_id).length ∧
          a.traj_heading.length = (maskIdx ids a.actor_id).length ∧
          a.traj_t.length = (maskIdx ids a.actor_id).length ∧
          (∀ v ∈ a.traj_heading, v.isSome = true) ∧
          (adf.getCol? "Actor_heading_true" = none →
            a.traj_heading = List.replicate (maskIdx ids a.actor_id).length (some 0)) ∧
          (∀ hv, adf.getCol? "Actor_heading_true" = some hv →
            ∀ i, i < (maskIdx ids a.actor_id).length →
              ((selIdx hv (maskIdx ids a.actor_id)).getD i none = none →
                a.traj_heading.getD i none = some 0) ∧
              (∀ q, (selIdx hv (maskIdx ids a.actor_id)).getD i none = some q →
                a.traj_heading.getD i none = some (round4 q))) ∧
          (a.traj_t = [] ∨
            ∃ stepv vsteps, adf.getCol? "Step_number" = some stepv ∧
              vdf.getCol? "Step_number" = some vsteps ∧
              ∀ i, i < (maskIdx ids a.actor_id).length →
                ((vsteps.findIdx? (fun c => cellEqCmp c
                    ((selIdx stepv (maskIdx ids a.actor_id)).getD i none)) = none →
                  a.traj_t.getD i none = some 0) ∧
                (∀ j, vsteps.findIdx? (fun c => cellEqCmp c
                    ((selIdx stepv (maskIdx ids a.actor_id)).getD i none)) = some j →
                  ((((vdf.getCol? "t").getD []).getD j none = none →
                    a.traj_t.getD i none = none) ∧
                  (∀ q, ((vdf.getCol? "t").getD []).getD j none = some q →
                    a.traj_t.getD i none = some (round4 q))))))) := by
  unfold evaluate at h
  cases hv : load_vut vutRaw with
  | none => rw [hv] at h; cases h
  | some vdf =>
    simp only [hv] at h
    have hUv : vdf.Uniform := load_vut_some_uniform vutRaw vdf hU hv
    have hvut : ∀ pr ∈ VUT_CHANNELS.map (fun p => (p.1, safe_col vdf p.2 0)),
        pr.2.length = vdf.nRows ∧ ∀ v ∈ pr.2, v.isSome = true := by
      intro pr hpr
      obtain ⟨p, -, rfl⟩ := List.mem_map.mp hpr
      exact ⟨safe_col_length vdf p.2 0 hUv, safe_col_isSome vdf p.2 0⟩
    have hchan : ∀ ch ∈ VUT_CHANNELS,
        (vdf.getCol? ch.2 = none →
          (ch.1, List.replicate vdf.nRows ((some 0 : OutVal))) ∈
            VUT_CHANNELS.map (fun p => (p.1, safe_col vdf p.2 0))) ∧
        (∀ vs, vdf.getCol? ch.2 = some vs →
          ∃ arr, (ch.1, arr) ∈
              VUT_CHANNELS.map (fun p => (p.1, safe_col vdf p.2 0)) ∧
            arr.length = vs.length ∧
            ∀ i, i < vs.length →
              (vs.getD i none = none → arr.getD i none = some 0) ∧
              (∀ q, vs.getD i none = some q →
                arr.getD i none = some (round6 q))) := by
      intro ch hch
      constructor
      · intro hcol
        refine List.mem_map.mpr ⟨ch, hch, ?_⟩
        unfold safe_col
        rw [hcol]
      · intro vs hcol
        have hsc : safe_col vdf ch.2 0 = vs.map (safeVal 0) := by
          unfold safe_col
          rw [hcol]
        refine ⟨safe_col vdf ch.2 0, List.mem_map.mpr ⟨ch, hch, rfl⟩, ?_, ?_⟩
        · rw [hsc, List.length_map]
        · intro i hi
          rw [hsc, getD_map_of_lt (safeVal 0) vs i none none hi]
          constructor
          · intro hc
            rw [hc]
            rfl
          · intro q hq
            rw [hq]
            rfl
    cases actorArg with
    | none =>
      cases h
      refine ⟨vdf, rfl, hvut, hchan, ?_⟩
      intro a ha
      cases ha
    | some oraw =>
      cases oraw with
      | none => cases h
      | some raw =>
        cases hla : load_actors raw with
        | none => simp only [hla] at h; cases h
        | some adf =>
          simp only [hla] at h
          cases hid : adf.getCol? "Actor_Id" with
          | none =>
            simp only [hid] at h
            cases h
            refine ⟨vdf, rfl, hvut, hchan, ?_⟩
            intro a ha
            cases ha
          | some ids =>
            simp only [hid] at h
            cases hmo : mapOpt (buildActor vdf adf ids) (dedupFirst ids) with
            | none => rw [hmo] at h; cases h
            | some acts =>
              rw [hmo] at h
              simp only [Option.map_some'] at h
              cases h
              refine ⟨vdf, rfl, hvut, hchan, ?_⟩
              intro a ha
              obtain ⟨aid, -, hba⟩ := mapOpt_mem_inv _ _ _ hmo a ha
              obtain ⟨hid_eq, h1, h2, h3, h4, h5, h6, h7, h8⟩ :=
                buildActor_spec vdf adf ids aid a hba
              subst hid_eq
              exact ⟨raw, adf, ids, rfl, hla, hid, h1, h2, h3, h4, h5, h6, h7, h8⟩

/-- C1 witness: a concrete evaluation in which the vehicle `Time` and
`VUT_heading` columns and the actor heading column each carry a missing
value: the vehicle heading channel comes out `[0.0, 3.0]`, the actor heading
array `[3.0, 0.0]`, and the actor `t` array `[0.0, NaN]` — the second actor
step matches the vehicle row whose relative time is missing. -/
theorem C1_witness :
    (normalize exVutC1).Uniform ∧
    ∃ res, evaluate exVutC1 (some (some exActorC1)) "tc" "r0" = some res ∧
      (∃ vdf, load_vut exVutC1 = some vdf ∧
        (∀ p ∈ res.vut, p.2.length = vdf.nRows ∧ ∀ v ∈ p.2, v.isSome = true) ∧
        (∀ ch ∈ VUT_CHANNELS,
          (vdf.getCol? ch.2 = none →
            (ch.1, List.replicate vdf.nRows ((some 0 : OutVal))) ∈ res.vut) ∧
          (∀ vs, vdf.getCol? ch.2 = some vs →
            ∃ arr, (ch.1, arr) ∈ res.vut ∧ arr.length = vs.length ∧
              ∀ i, i < vs.length →
                (vs.getD i none = none → arr.getD i none = some 0) ∧
                (∀ q, vs.getD i none = some q →
                  arr.getD i none = some (round6 q)))) ∧
        (∀ a ∈ res.actors,
          ∃ raw adf ids,
            (some (some exActorC1) : Option (Option Table)) = some (some raw) ∧
            load_actors raw = some adf ∧
            adf.getCol? "Actor_Id" = some ids ∧
            a.traj_lat.length = (maskIdx ids a.actor_id).length ∧
            a.traj_lng.length = (maskIdx ids a.actor_id).length ∧
            a.traj_heading.length = (maskIdx ids a.actor_id).length ∧
            a.traj_t.length = (maskIdx ids a.actor_id).length ∧
            (∀ v ∈ a.traj_heading, v.isSome = true) ∧
            (adf.getCol? "Actor_heading_true" = none →
              a.traj_heading =
                List.replicate (maskIdx ids a.actor_id).length (some 0)) ∧
            (∀ hv, adf.getCol? "Actor_heading_true" = some hv →
              ∀ i, i < (maskIdx ids a.actor_id).length →
                ((selIdx hv (maskIdx ids a.actor_id)).getD i none = none →
                  a.traj_heading.getD i none = some 0) ∧
                (∀ q, (selIdx hv (maskIdx ids a.actor_id)).getD i none = some q →
                  a.traj_heading.getD i none = some (round4 q))) ∧
            (a.traj_t = [] ∨
              ∃ stepv vsteps, adf.getCol? "Step_number" = some stepv ∧
                vdf.getCol? "Step_number" = some vsteps ∧
                ∀ i, i < (maskIdx ids a.actor_id).length →
                  ((vsteps.findIdx? (fun c => cellEqCmp c
                      ((selIdx stepv (maskIdx ids a.actor_id)).getD i none)) = none →
                    a.traj_t.getD i none = some 0) ∧
                  (∀ j, vsteps.findIdx? (fun c => cellEqCmp c
                      ((selIdx stepv (maskIdx ids a.actor_id)).getD i none)) = some j →
                    ((((vdf.getCol? "t").getD []).getD j none = none →
                      a.traj_t.getD i none = none) ∧
                    (∀ q, ((vdf.getCol? "t").getD []).getD j none = some q →
                      a.traj_t.getD i none = some (round4 q)))))))) ∧
      res.vut.filter (fun p => p.1 == "heading") =
        [("heading", [some 0, some 3])] ∧
      res.actors.map (fun a => a.traj_heading) = [[some 3, some 0]] ∧
      res.actors.map (fun a => a.traj_t) = [[some 0, none]] := by
  refine ⟨by decide, ?_⟩
  cases hres : evaluate exVutC1 (some (some exActorC1)) "tc" "r0" with
  | none => exact absurd hres (by with_unfolding_all decide)
  | some res =>
    have hhead : (evaluate exVutC1 (some (some exActorC1)) "tc" "r0").map
        (fun r => r.vut.filter (fun p => p.1 == "heading")) =
        some [("heading", [some 0, some 3])] := by
      with_unfolding_all decide
    have hah : (evaluate exVutC1 (some (some exActorC1)) "tc" "r0").map
        (fun r => r.actors.map (fun a => a.traj_heading)) =
        some [[some 3, some 0]] := by
      with_unfolding_all decide
    have hat : (evaluate exVutC1 (some (some exActorC1)) "tc" "r0").map
        (fun r => r.actors.map (fun a => a.traj_t)) =
        some [[some 0, none]] := by
      with_unfolding_all decide
    rw [hres] at hhead hah hat
    exact ⟨res, rfl,
      C1_lengths_and_defaults exVutC1 (some (some exActorC1)) "tc" "r0" res
        (by decide) hres,
      Option.some.inj hhead, Option.some.inj hah, Option.some.inj hat⟩

/-- C8 witness: a two-actor table; enumeration returns the two ids in
first-appearance order. -/
theorem C8_witness :
    load_actors exActorFull = some (normalize exActorFull) ∧
    ∃ l, extract_actors exActorFull = some l ∧
      l.map ActorInfo.actor_id = dedupFirst [some 7, some 8] := by
  have h := C8_enumeration exActorFull (normalize exActorFull) (by decide)
  have hhyp : ∀ a ∈ dedupFirst [(some 7 : Cell), some 8], ∀ tys,
      (normalize exActorFull).getCol? "Actor_type" = some tys →
      ∃ q, (selIdx tys (maskIdx [some 7, some 8] a)).head? = some (some q) := by
    intro a ha tys hty
    have hcol : (normalize exActorFull).getCol? "Actor_type" =
        some [some 4, some 2] := by decide
    rw [hcol] at hty
    have htys := Option.some.inj hty
    subst htys
    have ha2 : a ∈ [(some 7 : Cell), some 8] := ha
    rcases List.mem_cons.mp ha2 with rfl | ha3
    · exact ⟨4, by decide⟩
    rcases List.mem_cons.mp ha3 with rfl | ha4
    · exact ⟨2, by decide⟩
    · cases ha4
  obtain ⟨l, hl, hid, -⟩ := ((h.2 [some 7, some 8] (by decide)).2) hhyp
  exact ⟨by decide, l, hl, hid⟩

end ViSTA
